import Mathlib

/-!
A shallow embedding of the `fetch_imap_emails` tool (a Dify plugin that
fetches the most recent messages of an IMAP inbox, normalizes them, deletes
them and purges a trash folder), together with proofs of properties of that
code.

The definitions follow the two Python source files:
  - `src/tools/fetch_imap_emails.py` (the tool: config building, the IMAP
    pipeline, header/body normalization, trash resolution),
  - `src/provider/fetch_imap_emails.py` (credential validation).

Python-specific behaviour (truthiness, `int()` conversion, `str.split`,
byte decoding with `errors = strict/ignore`) is modelled explicitly; the
IMAP server and the network are modelled as an explicit state record plus a
trace of protocol actions, and Python exceptions are modelled with `Except`.
-/

namespace FetchImap

/-- Decidable equality for `Except`, so that concrete runs of the embedded
code can be checked by `decide`. -/
instance {ε α : Type} [DecidableEq ε] [DecidableEq α] :
    DecidableEq (Except ε α) := fun a b =>
  match a, b with
  | .error e, .error f =>
    if h : e = f then isTrue (h ▸ rfl)
    else isFalse (fun hh => h (Except.error.inj hh))
  | .ok x, .ok y =>
    if h : x = y then isTrue (h ▸ rfl)
    else isFalse (fun hh => h (Except.ok.inj hh))
  | .error _, .ok _ => isFalse (fun hh => Except.noConfusion hh)
  | .ok _, .error _ => isFalse (fun hh => Except.noConfusion hh)

/-- Model of a dynamically typed Python value as it appears in the
`tool_parameters` / `credentials` dictionaries: `None` (also standing for a
missing key, since `dict.get` returns `None` then), a string, or an int. -/
inductive PyVal where
  | vNone
  | vStr (s : String)
  | vInt (n : Int)
  deriving DecidableEq, Repr

/-- Python truthiness: `None`, `""` and `0` are falsy. -/
def PyVal.truthy : PyVal → Bool
  | .vNone => false
  | .vStr s => s != ""
  | .vInt n => n != 0

/-- Model of Python `a or b`: `a` when truthy, otherwise `b`. -/
def pyOr (a b : PyVal) : PyVal := if a.truthy then a else b

/-- Model of Python `str(v)`. -/
def PyVal.toStr : PyVal → String
  | .vNone => "None"
  | .vStr s => s
  | .vInt n => toString n

/-- Value of a decimal digit list (most significant first). -/
def digitsToNat (ds : List Char) : Nat :=
  ds.foldl (fun a c => a * 10 + (c.toNat - 48)) 0

/-- Model of Python `int(s)` on a string: surrounding whitespace is allowed,
then an optional sign and a nonempty run of decimal digits; anything else is
a `ValueError`. -/
def pyIntParse (s : String) : Option Int :=
  let l := (((s.data.dropWhile (·.isWhitespace)).reverse.dropWhile
    (·.isWhitespace)).reverse)
  match l with
  | [] => none
  | c :: rest =>
    let p : Bool × List Char :=
      if c = '-' then (true, rest)
      else if c = '+' then (false, rest)
      else (false, c :: rest)
    if p.2 ≠ [] ∧ p.2.all (·.isDigit) then
      let n : Int := digitsToNat p.2
      some (if p.1 then -n else n)
    else none

/-- Model of Python `int(v)`: an int converts to itself, a string is parsed
(`ValueError` on failure), `None` raises a `TypeError`. -/
def pyToInt : PyVal → Except String Int
  | .vInt n => .ok n
  | .vStr s =>
    match pyIntParse s with
    | some n => .ok n
    | none => .error "ValueError"
  | .vNone => .error "TypeError"

/-- The caller-supplied `tool_parameters` dictionary, one `PyVal` per key
read by `_build_config` (`vNone` for a missing key). -/
structure ToolParams where
  config_name : PyVal
  email_account : PyVal
  email_password : PyVal
  imap_server : PyVal
  imap_port : PyVal
  recent_count : PyVal
  deriving DecidableEq, Repr

/-- The stored `credentials` dictionary (`self.runtime.credentials`), one
`PyVal` per key (`vNone` for a missing key, matching `dict.get`). -/
structure Credentials where
  config_name : PyVal
  email_account : PyVal
  email_password : PyVal
  imap_server : PyVal
  imap_port : PyVal
  recent_count : PyVal
  deriving DecidableEq, Repr

/-- The frozen `ImapConfig` dataclass of the tool. -/
structure ImapConfig where
  config_name : Option String
  email_account : String
  email_password : String
  imap_server : String
  imap_port : Int
  recent_count : Int
  deriving DecidableEq, Repr

/-- The account value resolved by `_build_config`:
`tool_parameters.get("email_account") or creds.get("email_account")`. -/
def resolvedAccount (p : ToolParams) (c : Credentials) : PyVal :=
  pyOr p.email_account c.email_account

/-- The port value resolved by `_build_config`:
`tool_parameters.get("imap_port") or creds.get("imap_port")`. -/
def resolvedPort (p : ToolParams) (c : Credentials) : PyVal :=
  pyOr p.imap_port c.imap_port

/-- The recent-count value resolved by `_build_config`:
`tool_parameters.get("recent_count") or creds.get("recent_count") or 5`. -/
def resolvedRecent (p : ToolParams) (c : Credentials) : PyVal :=
  pyOr p.recent_count (pyOr c.recent_count (.vInt 5))

/-- The config-label value resolved by `_build_config`:
`tool_parameters.get("config_name") or creds.get("config_name")`. -/
def resolvedName (p : ToolParams) (c : Credentials) : PyVal :=
  pyOr p.config_name c.config_name

/-- The password value resolved by `_build_config`. -/
def resolvedPassword (p : ToolParams) (c : Credentials) : PyVal :=
  pyOr p.email_password c.email_password

/-- The server value resolved by `_build_config`. -/
def resolvedServer (p : ToolParams) (c : Credentials) : PyVal :=
  pyOr p.imap_server c.imap_server

/-- Embedding of `FetchImapEmailsTool._build_config`: resolve each field by
the `or` fallback chain (the `resolved...` definitions are the local
variables of the source), then validate account/password/server, then parse
and range-check the port and the recent count.  A raised `ValueError` is
modelled as `.error` with the message of the source. -/
def buildConfig (p : ToolParams) (c : Credentials) : Except String ImapConfig :=
  if !(resolvedAccount p c).truthy
      || !((resolvedAccount p c).toStr.data.contains '@') then
    .error "Invalid or missing email_account"
  else if !(resolvedPassword p c).truthy then .error "Missing email_password"
  else if !(resolvedServer p c).truthy then .error "Missing imap_server"
  else
    match pyToInt (resolvedPort p c) with
    | .error _ => .error "imap_port must be a positive integer"
    | .ok portN =>
      if portN ≤ 0 then .error "imap_port must be a positive integer"
      else
        match pyToInt (resolvedRecent p c) with
        | .error _ => .error "recent_count must be a positive integer"
        | .ok recentN =>
          if recentN ≤ 0 then .error "recent_count must be a positive integer"
          else
            .ok
              { config_name :=
                  if (resolvedName p c).truthy then
                    some (resolvedName p c).toStr
                  else none
                email_account := (resolvedAccount p c).toStr
                email_password := (resolvedPassword p c).toStr
                imap_server := (resolvedServer p c).toStr
                imap_port := portN
                recent_count := recentN }

/-- Embedding of `FetchImapEmailsProvider._validate_credentials`: the six
required fields are checked for presence/truthiness in source order (note
that `config_name` is in the required list), then the account format and
the two integer fields.  `field not in credentials or not credentials[field]`
collapses to non-truthiness since a missing key is modelled as `vNone`. -/
def validateCredentials (c : Credentials) : Except String Unit :=
  if !c.config_name.truthy then
    .error "Missing or empty credential: config_name"
  else if !c.email_account.truthy then
    .error "Missing or empty credential: email_account"
  else if !c.email_password.truthy then
    .error "Missing or empty credential: email_password"
  else if !c.imap_server.truthy then
    .error "Missing or empty credential: imap_server"
  else if !c.imap_port.truthy then
    .error "Missing or empty credential: imap_port"
  else if !c.recent_count.truthy then
    .error "Missing or empty credential: recent_count"
  else if !(c.email_account.toStr.data.contains '@') then
    .error "Invalid email account format"
  else
    match pyToInt c.imap_port with
    | .error _ => .error "IMAP port must be a positive integer"
    | .ok portN =>
      if portN ≤ 0 then .error "IMAP port must be a positive integer"
      else
        match pyToInt c.recent_count with
        | .error _ => .error "Recent email count must be a positive integer"
        | .ok recentN =>
          if recentN ≤ 0 then
            .error "Recent email count must be a positive integer"
          else .ok ()

/-- The Python exceptions that the normalization/IMAP code can raise. -/
inductive PyErr where
  | unicodeDecodeError (encoding : String)
  | lookupError (encoding : String)
  | imapError (op : String)
  deriving DecidableEq, Repr

/-- Model of `str(exc)` for the error record emitted by `_invoke`. -/
def PyErr.toStr : PyErr → String
  | .unicodeDecodeError enc => "codec cannot decode: " ++ enc
  | .lookupError enc => "unknown encoding: " ++ enc
  | .imapError op => "imap error: " ++ op

/-- A UTF-8 continuation byte. -/
def isCont (b : Nat) : Bool := 0x80 ≤ b && b ≤ 0xBF

/-- Modelled from the Python stdlib: the strict UTF-8 decoder
(`bytes.decode("utf-8")`), returning the code points or `none` on any
invalid sequence (overlong forms, surrogates and values above U+10FFFF are
rejected, as CPython does). -/
def utf8DecodeStrict : List Nat → Option (List Nat)
  | [] => some []
  | b :: rest =>
    if b ≤ 0x7F then (utf8DecodeStrict rest).map (b :: ·)
    else if 0xC2 ≤ b && b ≤ 0xDF then
      match rest with
      | c1 :: r =>
        if isCont c1 then
          (utf8DecodeStrict r).map (((b - 0xC0) * 0x40 + (c1 - 0x80)) :: ·)
        else none
      | [] => none
    else if 0xE0 ≤ b && b ≤ 0xEF then
      match rest with
      | c1 :: c2 :: r =>
        if (if b = 0xE0 then 0xA0 else 0x80) ≤ c1 &&
            c1 ≤ (if b = 0xED then 0x9F else 0xBF) && isCont c2 then
          (utf8DecodeStrict r).map
            (((b - 0xE0) * 0x1000 + (c1 - 0x80) * 0x40 + (c2 - 0x80)) :: ·)
        else none
      | _ => none
    else if 0xF0 ≤ b && b ≤ 0xF4 then
      match rest with
      | c1 :: c2 :: c3 :: r =>
        if (if b = 0xF0 then 0x90 else 0x80) ≤ c1 &&
            c1 ≤ (if b = 0xF4 then 0x8F else 0xBF) && isCont c2 && isCont c3 then
          (utf8DecodeStrict r).map
            (((b - 0xF0) * 0x40000 + (c1 - 0x80) * 0x1000 +
              (c2 - 0x80) * 0x40 + (c3 - 0x80)) :: ·)
        else none
      | _ => none
    else none

/-- Modelled from the Python stdlib: `bytes.decode("utf-8", errors="ignore")`.
On an invalid sequence the offending lead byte is skipped and decoding
resumes (this reproduces CPython on truncated sequences and bad
continuations); the function is total. -/
def utf8DecodeIgnore : List Nat → List Nat
  | [] => []
  | b :: rest =>
    if b ≤ 0x7F then b :: utf8DecodeIgnore rest
    else if 0xC2 ≤ b && b ≤ 0xDF then
      match rest with
      | c1 :: r =>
        if isCont c1 then ((b - 0xC0) * 0x40 + (c1 - 0x80)) :: utf8DecodeIgnore r
        else utf8DecodeIgnore (c1 :: r)
      | [] => []
    else if 0xE0 ≤ b && b ≤ 0xEF then
      match rest with
      | c1 :: c2 :: r =>
        if (if b = 0xE0 then 0xA0 else 0x80) ≤ c1 &&
            c1 ≤ (if b = 0xED then 0x9F else 0xBF) && isCont c2 then
          ((b - 0xE0) * 0x1000 + (c1 - 0x80) * 0x40 + (c2 - 0x80)) ::
            utf8DecodeIgnore r
        else utf8DecodeIgnore (c1 :: c2 :: r)
      | r => utf8DecodeIgnore r
    else if 0xF0 ≤ b && b ≤ 0xF4 then
      match rest with
      | c1 :: c2 :: c3 :: r =>
        if (if b = 0xF0 then 0x90 else 0x80) ≤ c1 &&
            c1 ≤ (if b = 0xF4 then 0x8F else 0xBF) && isCont c2 && isCont c3 then
          ((b - 0xF0) * 0x40000 + (c1 - 0x80) * 0x1000 +
            (c2 - 0x80) * 0x40 + (c3 - 0x80)) :: utf8DecodeIgnore r
        else utf8DecodeIgnore (c1 :: c2 :: c3 :: r)
      | r => utf8DecodeIgnore r
    else utf8DecodeIgnore rest

/-- Modelled from the Python stdlib: strict ASCII decoding — any byte above
0x7F raises. -/
def asciiDecodeStrict (bs : List Nat) : Option (List Nat) :=
  if bs.all (· ≤ 0x7F) then some bs else none

/-- Modelled from the Python stdlib: ASCII decoding with `errors="ignore"` —
bytes above 0x7F are dropped. -/
def asciiDecodeIgnore (bs : List Nat) : List Nat :=
  bs.filter (· ≤ 0x7F)

/-- The codecs this model knows (the subset of the Python codec registry the
claims exercise). -/
inductive Codec where
  | ascii
  | utf8
  deriving DecidableEq, Repr

/-- Model of Python `str.lower()` on strings (on the ASCII range, which is
all the codec registry needs). -/
def lowerString (s : String) : String :=
  String.mk (s.data.map Char.toLower)

/-- Modelled from the Python stdlib codec registry: case-insensitive lookup
of a charset name; an unknown name is a `LookupError` regardless of the
`errors` argument. -/
def lookupCodec (name : String) : Option Codec :=
  match lowerString name with
  | "ascii" => some .ascii
  | "us-ascii" => some .ascii
  | "646" => some .ascii
  | "utf-8" => some .utf8
  | "utf8" => some .utf8
  | "utf_8" => some .utf8
  | "u8" => some .utf8
  | _ => none

/-- Code points to a Lean string. -/
def natsToString (cps : List Nat) : String :=
  String.mk (cps.map Char.ofNat)

/-- Modelled from the Python stdlib: `bs.decode(charset, errors)` where
`ignoreErrors` selects between `errors="ignore"` and the strict default.
Unknown charset: `LookupError` (before any error handling); undecodable
bytes: `UnicodeDecodeError` in strict mode, dropped in ignore mode. -/
def pyDecode (charset : String) (ignoreErrors : Bool) (bs : List Nat) :
    Except PyErr String :=
  match lookupCodec charset with
  | none => .error (.lookupError charset)
  | some cdc =>
    if ignoreErrors then
      .ok (natsToString
        (match cdc with
         | .ascii => asciiDecodeIgnore bs
         | .utf8 => utf8DecodeIgnore bs))
    else
      match
        (match cdc with
         | .ascii => asciiDecodeStrict bs
         | .utf8 => utf8DecodeStrict bs) with
      | some cps => .ok (natsToString cps)
      | none => .error (.unicodeDecodeError charset)

/-- One entry of the list returned by `email.header.decode_header`: either an
unencoded text run (a `(str, None)` pair) or the raw bytes of a MIME
encoded word together with its declared charset (a `(bytes, charset)`
pair).  Modelled from the spec and the stdlib: the textual parsing of
`=?charset?B?...?=` syntax is left to the stdlib, whose output shape this
type captures. -/
inductive HSeg where
  | text (s : String)
  | word (charset : String) (bs : List Nat)
  deriving DecidableEq, Repr

/-- Modelled from the Python stdlib `email.header.make_header` composed with
`str`: each `(bytes, charset)` pair is decoded with the declared charset and
the STRICT error handler (`Header.append` defaults to `errors="strict"`), so
an undecodable segment or an unknown charset raises; text runs pass
through. -/
def makeHeaderStr : List HSeg → Except PyErr String
  | [] => .ok ""
  | .text s :: rest => (makeHeaderStr rest).map (s ++ ·)
  | .word cs bs :: rest =>
    match pyDecode cs false bs with
    | .error e => .error e
    | .ok t => (makeHeaderStr rest).map (t ++ ·)

/-- Embedding of `FetchImapEmailsTool._decode_header_value`: a missing (or
falsy) header yields `""`, otherwise `str(make_header(decode_header(value)))`
on the segments of the header value. -/
def decodeHeaderValue : Option (List HSeg) → Except PyErr String
  | none => .ok ""
  | some segs => makeHeaderStr segs

/-- The attributes of one MIME part that `_extract_body` / `_decode_part`
read: `get_content_type()` (lowercased by the stdlib), the raw
`Content-Disposition` header (`none` when absent), `get_content_charset()`
(`none` when absent) and `get_payload(decode=True)` (`none` when the part
has no decodable payload, e.g. a multipart container). -/
structure PartInfo where
  contentType : String
  disposition : Option String
  charset : Option String
  payload : Option (List Nat)
  deriving DecidableEq, Repr

/-- The part tree of a parsed `email.message.Message`: a non-multipart
message/part, or a multipart container with its sub-parts. -/
inductive MsgBody where
  | leafPart (info : PartInfo)
  | multipart (info : PartInfo) (parts : List MsgBody)

/-- The `PartInfo` of the node itself. -/
def MsgBody.info : MsgBody → PartInfo
  | .leafPart i => i
  | .multipart i _ => i

/-- Model of `Message.is_multipart()`. -/
def MsgBody.isMulti : MsgBody → Bool
  | .leafPart _ => false
  | .multipart _ _ => true

mutual

/-- Model of `Message.walk()`: the message itself, then every sub-part in
document order (containers included), depth first. -/
def MsgBody.walk : MsgBody → List PartInfo
  | .leafPart i => [i]
  | .multipart i ps => i :: walkList ps

/-- `walk` over a list of sibling parts, in order. -/
def walkList : List MsgBody → List PartInfo
  | [] => []
  | m :: ms => m.walk ++ walkList ms

end

/-- Embedding of `FetchImapEmailsTool._decode_part`: the declared charset
(`get_content_charset() or "utf-8"`), then `get_payload(decode=True)` — a
`None` payload yields `""` before any decoding — then
`payload.decode(charset, errors="ignore")`. -/
def decodePart (p : PartInfo) : Except PyErr String :=
  let charset := p.charset.getD "utf-8"
  match p.payload with
  | none => .ok ""
  | some bs => pyDecode charset true bs

/-- The filter of the first loop of `_extract_body`: a `text/plain` part with
no `Content-Disposition` header. -/
def plainNoDisp (p : PartInfo) : Bool :=
  p.contentType == "text/plain" && p.disposition == none

/-- The filter of the second loop of `_extract_body`: a `text/html` part with
no `Content-Disposition` header. -/
def htmlNoDisp (p : PartInfo) : Bool :=
  p.contentType == "text/html" && p.disposition == none

/-- Embedding of `FetchImapEmailsTool._extract_body`: on a multipart
message, the first walked part that is `text/plain` with no disposition,
else the first walked `text/html` part with no disposition, else `""`; on a
non-multipart message, its own decoded payload. -/
def extractBody (m : MsgBody) : Except PyErr String :=
  if m.isMulti then
    match m.walk.find? plainNoDisp with
    | some p => decodePart p
    | none =>
      match m.walk.find? htmlNoDisp with
      | some p => decodePart p
      | none => .ok ""
  else decodePart m.info

/-- A parsed top-level message as `_extract_email` reads it: the raw
`Subject`, `From` and `Date` headers (absent headers are `none`; the two
decoded headers are given as their `decode_header` segment lists) and the
part tree. -/
structure Msg where
  subject : Option (List HSeg)
  sender : Option (List HSeg)
  date : Option String
  body : MsgBody

/-- The normalized record `_extract_email` builds:
`{"subject": ..., "from": ..., "date": ..., "body": ...}` (the date is the
raw header value, `None` when absent). -/
structure EmailRec where
  subject : String
  sender : String
  date : Option String
  body : String
  deriving DecidableEq, Repr

/-- Embedding of `FetchImapEmailsTool._extract_email`: decode the subject
and sender headers, pass the date through, extract the body.  Any exception
of a step propagates (there is no handler in the source). -/
def extractEmail (m : Msg) : Except PyErr EmailRec :=
  match decodeHeaderValue m.subject with
  | .error e => .error e
  | .ok subj =>
    match decodeHeaderValue m.sender with
    | .error e => .error e
    | .ok sndr =>
      match extractBody m.body with
      | .error e => .error e
      | .ok bdy => .ok ⟨subj, sndr, m.date, bdy⟩

/-- Model of Python `str.split(sep)` for a one-character separator, on char
lists: `n` separators yield `n + 1` (possibly empty) fields. -/
def pySplitChar (c : Char) : List Char → List (List Char)
  | [] => [[]]
  | x :: xs =>
    match pySplitChar c xs with
    | [] => [[]]
    | h :: t => if x = c then [] :: h :: t else (x :: h) :: t

/-- Model of Python `str.strip(ch)` for a one-character argument: drop every
leading and trailing occurrence. -/
def pyStripChar (c : Char) (l : List Char) : List Char :=
  ((l.dropWhile (· = c)).reverse.dropWhile (· = c)).reverse

/-- Accumulator form of whitespace splitting (`str.split()` with no
argument): runs of whitespace separate tokens, empty tokens are dropped. -/
def pyWsSplitAux : List Char → List Char → List (List Char)
  | acc, [] => if acc = [] then [] else [acc.reverse]
  | acc, x :: xs =>
    if x.isWhitespace then
      if acc = [] then pyWsSplitAux [] xs
      else acc.reverse :: pyWsSplitAux [] xs
    else pyWsSplitAux (x :: acc) xs

/-- Model of Python `str.split()` (no argument). -/
def pyWsSplit (l : List Char) : List (List Char) :=
  pyWsSplitAux [] l

/-- The token fallback of `_parse_mailbox_name`: the last whitespace token
with quote characters stripped, `none` when the line has no token. -/
def parseTokensName (line : List Char) : Option (List Char) :=
  match (pyWsSplit line).getLast? with
  | some t => some (pyStripChar '\"' t)
  | none => none

/-- Embedding of `FetchImapEmailsTool._parse_mailbox_name`: when the line
contains a quote character and splitting on it yields at least two fields,
the second-to-last field (`parts[-2]`); otherwise the last whitespace token
with quotes stripped; `none` for a token-free line. -/
def parseMailboxName (line : List Char) : Option (List Char) :=
  if '\"' ∈ line then
    let parts := pySplitChar '\"' line
    if 2 ≤ parts.length then some (parts.getD (parts.length - 2) [])
    else parseTokensName line
  else parseTokensName line

/-- The frozen `TRASH_FOLDERS` alias tuple of the tool. -/
def TRASH_FOLDERS : List (List Char) :=
  ["Trash".data, "Deleted Items".data, "Deleted Messages".data,
   "垃圾箱".data, "回收站".data, "Bin".data, "[Gmail]/Trash".data]

/-- Model of Python `str.lower()` on the character lists this system
compares (ASCII letters and CJK, on which both agree). -/
def lowerChars (l : List Char) : List Char :=
  l.map Char.toLower

/-- The loop body of `_find_trash_folder`: parse each line (the
`line.decode("utf-8", errors="ignore")` step never raises, so the
`try/except continue` is inert and the lines arrive as text), skip falsy
names, return the first name equal (case-insensitively) to an alias. -/
def findTrashAux : List (List Char) → Option (List Char)
  | [] => none
  | l :: rest =>
    match parseMailboxName l with
    | none => findTrashAux rest
    | some name =>
      if name = [] then findTrashAux rest
      else if TRASH_FOLDERS.any (fun f => lowerChars name == lowerChars f) then
        some name
      else findTrashAux rest

/-- Embedding of `FetchImapEmailsTool._find_trash_folder`: a falsy
(`None` or empty) listing yields `none`, otherwise the first alias match. -/
def findTrashFolder : Option (List (List Char)) → Option (List Char)
  | none => none
  | some ls => if ls.isEmpty then none else findTrashAux ls

/-- One protocol command issued on the IMAP connection, recorded in a trace
(network side effects). -/
inductive Act where
  | connect
  | login
  | selectF (folder : String)
  | search
  | fetch (id : String)
  | store (folder : String) (target : String) (flags : String)
  | expunge (folder : String)
  | listCmd
  | logout
  deriving DecidableEq, Repr

/-- One element of the `msg_data` list returned by `mail.fetch`: the code
skips non-tuple elements and parses the second component of tuple elements
with `email.message_from_bytes` (whose structured result a `Msg` is). -/
inductive FetchPart where
  | nonTuple
  | msgTuple (m : Msg)

/-- The environment of one invocation: which commands fail (a failing
command raises `imaplib.IMAP4.error` or a network error) and what the
succeeding ones return.  `searchIds` is `none` when the search data is falsy
or `data[0]` is `None`, otherwise the already-split identifier list
(oldest first, as the server returns it).  `listLines` is `none` for a falsy
mailbox listing.  Store/expunge failure is keyed by the folder the command
runs in (the store target distinguishes per-id stores from the trash
wildcard). -/
structure ImapServer where
  connectFails : Bool
  loginFails : Bool
  selectFails : String → Bool
  searchFails : Bool
  searchIds : Option (List String)
  fetchFails : String → Bool
  fetchData : String → List FetchPart
  storeFails : String → String → Bool
  expungeFails : String → Bool
  listFails : Bool
  listLines : Option (List (List Char))

/-- The flag argument of every `store` in the source. -/
def deletedFlag : String := "\\Deleted"

/-- Model of Python `l[i:]` (one-sided slice with a possibly negative
start). -/
def pySliceFrom (l : List α) (i : Int) : List α :=
  if i < 0 then l.drop ((l.length + i).toNat) else l.drop i.toNat

/-- The target computation of `_fetch_and_delete_emails`:
`list(reversed(mail_ids[-config.recent_count:]))`. -/
def targetIds (ids : List String) (k : Int) : List String :=
  (pySliceFrom ids (-k)).reverse

/-- The inner loop body over `msg_data`: skip non-tuples, normalize each
parsed message, appending the records; an exception propagates. -/
def extractParts : List FetchPart → Except PyErr (List EmailRec)
  | [] => .ok []
  | .nonTuple :: rest => extractParts rest
  | .msgTuple m :: rest =>
    match extractEmail m with
    | .error e => .error e
    | .ok r =>
      match extractParts rest with
      | .error e => .error e
      | .ok rs => .ok (r :: rs)

/-- The per-target loop of `_fetch_and_delete_emails`: fetch the id,
normalize every tuple part of the response, then store `\\Deleted` on the id
and increment the deleted counter; the first exception stops the loop.
Returns the outcome together with the trace of commands issued (a failing
command is still issued, so it appears in the trace). -/
def processTargets (srv : ImapServer) : List String →
    Except PyErr (List EmailRec × Nat) × List Act
  | [] => (.ok ([], 0), [])
  | id :: rest =>
    if srv.fetchFails id then (.error (.imapError "fetch"), [.fetch id])
    else
      match extractParts (srv.fetchData id) with
      | .error e => (.error e, [.fetch id])
      | .ok recs =>
        if srv.storeFails "INBOX" id then
          (.error (.imapError "store"),
            [.fetch id, .store "INBOX" id deletedFlag])
        else
          ((processTargets srv rest).1.map (fun x => (recs ++ x.1, x.2 + 1)),
            .fetch id :: .store "INBOX" id deletedFlag ::
              (processTargets srv rest).2)

/-- Embedding of `FetchImapEmailsTool._empty_trash`: list the mailboxes,
resolve a trash folder; none found reports `false` with no further
commands; otherwise select it, store `\\Deleted` on the `1:*` range,
expunge, report `true`. -/
def emptyTrash (srv : ImapServer) : Except PyErr Bool × List Act :=
  if srv.listFails then (.error (.imapError "list"), [.listCmd])
  else
    match findTrashFolder srv.listLines with
    | none => (.ok false, [.listCmd])
    | some nmC =>
      let nm : String := String.mk nmC
      if srv.selectFails nm then
        (.error (.imapError "select"), [.listCmd, .selectF nm])
      else if srv.storeFails nm "1:*" then
        (.error (.imapError "store"),
          [.listCmd, .selectF nm, .store nm "1:*" deletedFlag])
      else if srv.expungeFails nm then
        (.error (.imapError "expunge"),
          [.listCmd, .selectF nm, .store nm "1:*" deletedFlag, .expunge nm])
      else
        (.ok true,
          [.listCmd, .selectF nm, .store nm "1:*" deletedFlag, .expunge nm])

/-- The target sequence of a run: the identifier list of the search (empty
for falsy search data) put through the `reversed`-tail-slice computation. -/
def inboxTargets (srv : ImapServer) (cfg : ImapConfig) : List String :=
  targetIds (srv.searchIds.getD []) cfg.recent_count

/-- The `try` block of `_fetch_and_delete_emails`: login, select INBOX,
search, compute the targets, run the per-target loop, expunge INBOX only
when there are targets, then empty the trash. -/
def fetchInner (srv : ImapServer) (cfg : ImapConfig) :
    Except PyErr (List EmailRec × Nat × Bool) × List Act :=
  if srv.loginFails then (.error (.imapError "login"), [.login])
  else if srv.selectFails "INBOX" then
    (.error (.imapError "select"), [.login, .selectF "INBOX"])
  else if srv.searchFails then
    (.error (.imapError "search"), [.login, .selectF "INBOX", .search])
  else
    match (processTargets srv (inboxTargets srv cfg)).1 with
    | .error e =>
      (.error e, [.login, .selectF "INBOX", .search]
        ++ (processTargets srv (inboxTargets srv cfg)).2)
    | .ok rc =>
      if (inboxTargets srv cfg).isEmpty then
        ((emptyTrash srv).1.map (fun b => (rc.1, rc.2, b)),
          [.login, .selectF "INBOX", .search]
            ++ (processTargets srv (inboxTargets srv cfg)).2
            ++ (emptyTrash srv).2)
      else if srv.expungeFails "INBOX" then
        (.error (.imapError "expunge"),
          [.login, .selectF "INBOX", .search]
            ++ (processTargets srv (inboxTargets srv cfg)).2
            ++ [.expunge "INBOX"])
      else
        ((emptyTrash srv).1.map (fun b => (rc.1, rc.2, b)),
          [.login, .selectF "INBOX", .search]
            ++ (processTargets srv (inboxTargets srv cfg)).2
            ++ [.expunge "INBOX"] ++ (emptyTrash srv).2)

/-- Embedding of `FetchImapEmailsTool._fetch_and_delete_emails`: the
`IMAP4_SSL` constructor opens the connection (a constructor failure raises
before the `try`, so nothing else runs); then the `try` block, with
`mail.logout()` in the `finally` — the logout is issued on every exit of the
block, succeeding or raising. -/
def fetchAndDeleteEmails (srv : ImapServer) (cfg : ImapConfig) :
    Except PyErr (List EmailRec × Nat × Bool) × List Act :=
  if srv.connectFails then (.error (.imapError "connect"), [.connect])
  else
    ((fetchInner srv cfg).1,
      .connect :: ((fetchInner srv cfg).2 ++ [.logout]))

/-- The single JSON message `_invoke` yields: the success payload (echoed
config fields, records, deleted count, trash flag) or the error payload
`{"error": str(exc)}`. -/
inductive Output where
  | okMsg (config_name : Option String) (email_account : String)
      (imap_server : String) (imap_port : Int) (recent_count : Int)
      (emails : List EmailRec) (deleted_count : Nat) (trash_cleared : Bool)
  | errMsg (error : String)
  deriving DecidableEq, Repr

/-- Embedding of `FetchImapEmailsTool._invoke`: build the config, run the
pipeline, emit one success message; any exception anywhere is caught and
emitted as one error message.  The second component is the trace of network
commands issued (empty when `_build_config` raised). -/
def invoke (srv : ImapServer) (p : ToolParams) (c : Credentials) :
    Output × List Act :=
  match buildConfig p c with
  | .error e => (.errMsg e, [])
  | .ok cfg =>
    match fetchAndDeleteEmails srv cfg with
    | (.ok (recs, cnt, trash), tr) =>
      (.okMsg cfg.config_name cfg.email_account cfg.imap_server
        cfg.imap_port cfg.recent_count recs cnt trash, tr)
    | (.error e, tr) => (.errMsg e.toStr, tr)

/-- The body-selection rule in the words of the spec: walk all parts in
document order, keep those whose declared content type is plain text and
which carry no content-disposition, and pick the first; if none, the same
with HTML parts; if still none, the body is empty; a non-multipart message
decodes its single payload directly.  Stated with `filter`/`head?` to be
compared with the `find?`-style loop of the code. -/
def specSelectBody (m : MsgBody) : Except PyErr String :=
  if m.isMulti then
    match (m.walk.filter plainNoDisp).head? with
    | some p => decodePart p
    | none =>
      match (m.walk.filter htmlNoDisp).head? with
      | some p => decodePart p
      | none => .ok ""
  else decodePart m.info

/-- A parsed mailbox display name that `_find_trash_folder` accepts: a
non-falsy name matching the alias set case-insensitively. -/
def isTrashName (name : List Char) : Bool :=
  name ≠ [] && TRASH_FOLDERS.any (fun f => lowerChars name == lowerChars f)

/-- The store commands a trace issued in a given folder, in order (their
targets). -/
def storeTargets (folder : String) (tr : List Act) : List String :=
  tr.filterMap (fun a =>
    match a with
    | .store f t _ => if f = folder then some t else none
    | _ => none)

/-- An empty `tool_parameters` dictionary. -/
def noParams : ToolParams :=
  ⟨.vNone, .vNone, .vNone, .vNone, .vNone, .vNone⟩

/-- A fully populated, valid credentials dictionary. -/
def goodCreds : Credentials :=
  ⟨.vStr "main", .vStr "u@x.com", .vStr "p", .vStr "imap.x.com",
   .vInt 993, .vInt 5⟩

/-- `goodCreds` with the configuration label absent. -/
def noLabelCreds : Credentials :=
  { goodCreds with config_name := .vNone }

/-- A server on which every command succeeds, with an empty inbox and a
falsy mailbox listing. -/
def benignServer : ImapServer where
  connectFails := false
  loginFails := false
  selectFails := fun _ => false
  searchFails := false
  searchIds := some []
  fetchFails := fun _ => false
  fetchData := fun _ => []
  storeFails := fun _ _ => false
  expungeFails := fun _ => false
  listFails := false
  listLines := none

/-- The config `buildConfig noParams goodCreds` produces. -/
def benignConfig : ImapConfig :=
  ⟨some "main", "u@x.com", "p", "imap.x.com", 993, 5⟩

/-- A benign server whose inbox holds exactly one message. -/
def oneMsgServer (m : Msg) : ImapServer :=
  { benignServer with
    searchIds := some ["1"]
    fetchData := fun _ => [.msgTuple m] }

/-- A well-formed plain-text part with body bytes for the text "hi". -/
def plainPart : PartInfo :=
  ⟨"text/plain", none, some "utf-8", some [104, 105]⟩

/-- A message whose subject is a single encoded word declared as ASCII but
holding the undecodable byte 0xFF. -/
def badSubjectMsg : Msg :=
  ⟨some [.word "ascii" [255]], none, none, .leafPart plainPart⟩

/-- An HTML part with body bytes for the text of a small tag. -/
def htmlPart : PartInfo :=
  ⟨"text/html", none, some "utf-8", some [60, 112, 62]⟩

/-- A plain-text part marked as an attachment via content-disposition. -/
def attachPart : PartInfo :=
  ⟨"text/plain", some "attachment; filename=a.txt", some "utf-8", some [97]⟩

/-- The info record of a multipart container. -/
def containerInfo : PartInfo :=
  ⟨"multipart/mixed", none, none, none⟩

/-- A multipart message holding only an HTML part. -/
def htmlOnlyMsg : MsgBody :=
  .multipart containerInfo [.leafPart htmlPart]

/-- A multipart message whose first part is an attachment and whose second
part is inline plain text. -/
def attachThenPlainMsg : MsgBody :=
  .multipart containerInfo [.leafPart attachPart, .leafPart plainPart]

/-- A part declaring an unknown charset with a present payload. -/
def bogusPart : PartInfo :=
  ⟨"text/plain", none, some "x-bogus", some [104, 105]⟩

/-- A message whose body part declares an unknown charset. -/
def bogusCharsetMsg : Msg :=
  ⟨none, none, none, .leafPart bogusPart⟩

/-- Tool parameters carrying an unparsable port override. -/
def badPortParams : ToolParams :=
  { noParams with imap_port := .vStr "abc" }

/-- A raw mailbox-listing line whose quoted final token is Deleted Items. -/
def deletedItemsLine : List Char :=
  "(\\HasNoChildren) \"/\" \"Deleted Items\"".data

/-- A benign server whose mailbox listing contains a trash alias. -/
def trashServer : ImapServer :=
  { benignServer with listLines := some [deletedItemsLine] }

/-- Tool parameters overriding port and recent count with the falsy 0. -/
def zeroParams : ToolParams :=
  { noParams with imap_port := .vInt 0, recent_count := .vInt 0 }

/-- `goodCreds` with no stored recent count. -/
def credsNoRecent : Credentials :=
  { goodCreds with recent_count := .vNone }

/-! Helper lemmas. -/

lemma targetIds_nil (k : Int) : targetIds [] k = [] := by
  unfold targetIds pySliceFrom
  split <;> simp

lemma buildConfig_noParams_goodCreds :
    buildConfig noParams goodCreds = .ok benignConfig := by decide

/-! Claim theorems. -/

/-- C1.  For every server-returned identifier sequence (oldest first) and
every validated recent count K > 0, the computed target list equals
`reverse(sequence[max(0, len - K):])` — the newest `min(K, len)` identifiers
newest first — and on an empty sequence the target list is empty and the
pipeline completes without error. -/
theorem C1_locator_targets (ids : List String) (k : Int) (hk : 0 < k)
    (srv : ImapServer) (cfg : ImapConfig) (hcfg : cfg.recent_count = k)
    (hc : srv.connectFails = false) (hl : srv.loginFails = false)
    (hs : srv.selectFails "INBOX" = false) (hq : srv.searchFails = false)
    (hids : srv.searchIds = some ids)
    (hlist : srv.listFails = false) (hmb : srv.listLines = none) :
    targetIds ids k = (ids.drop (max 0 ((ids.length : Int) - k)).toNat).reverse
    ∧ (ids = [] → (fetchAndDeleteEmails srv cfg).1 = .ok ([], 0, false)) := by
  constructor
  · unfold targetIds pySliceFrom
    rw [if_pos (by omega : -k < 0)]
    have h2 : ((ids.length : Int) + -k).toNat
        = (max 0 ((ids.length : Int) - k)).toNat := by omega
    rw [h2]
  · intro h
    subst h
    have hT : inboxTargets srv cfg = [] := by
      unfold inboxTargets
      rw [hids, hcfg]
      simp [targetIds_nil]
    unfold fetchAndDeleteEmails fetchInner emptyTrash
    rw [hc, hl, hs, hq, hlist, hmb, hT]
    simp [processTargets, findTrashFolder, Except.map]

/-- Witness for C1 at the empty sequence with K = 5 on a benign server. -/
theorem C1_locator_targets_witness :
    targetIds ([] : List String) 5 = []
    ∧ (fetchAndDeleteEmails benignServer benignConfig).1 = .ok ([], 0, false) := by
  have h := C1_locator_targets [] 5 (by decide) benignServer benignConfig
    rfl rfl rfl rfl rfl rfl rfl rfl
  exact ⟨by simpa using h.1, h.2 rfl⟩

/-- C6.  On every execution path after the connection is established —
normal completion and failure at any later stage — the trace of the session
ends with a logout before control returns. -/
theorem C6_logout_on_every_path (srv : ImapServer) (cfg : ImapConfig)
    (hc : srv.connectFails = false) :
    ((fetchAndDeleteEmails srv cfg).2).getLast? = some .logout := by
  unfold fetchAndDeleteEmails
  rw [hc]
  cases h : fetchInner srv cfg with
  | mk res tr =>
    simp only [Bool.false_eq_true, if_false]
    show (Act.connect :: (tr ++ [Act.logout])).getLast? = some Act.logout
    rw [show Act.connect :: (tr ++ [Act.logout])
        = (Act.connect :: tr) ++ [Act.logout] from rfl]
    exact List.getLast?_concat _

/-- Witness for C6 on the benign server. -/
theorem C6_logout_on_every_path_witness :
    ((fetchAndDeleteEmails benignServer benignConfig).2).getLast?
      = some .logout :=
  C6_logout_on_every_path benignServer benignConfig rfl

lemma buildConfig_ok_inv (p : ToolParams) (c : Credentials)
    (cfg : ImapConfig) (h : buildConfig p c = .ok cfg) :
    (resolvedAccount p c).toStr.data.contains '@' = true
    ∧ pyToInt (resolvedPort p c) = .ok cfg.imap_port ∧ 0 < cfg.imap_port
    ∧ pyToInt (resolvedRecent p c) = .ok cfg.recent_count
    ∧ 0 < cfg.recent_count
    ∧ cfg.config_name
      = (if (resolvedName p c).truthy then some (resolvedName p c).toStr
         else none) := by
  unfold buildConfig at h
  split at h
  · exact absurd h (by simp)
  · split at h
    · exact absurd h (by simp)
    · split at h
      · exact absurd h (by simp)
      · rename_i hacc _ _
        split at h
        · exact absurd h (by simp)
        · rename_i portN hport
          split at h
          · exact absurd h (by simp)
          · rename_i hportPos
            split at h
            · exact absurd h (by simp)
            · rename_i recentN hrecent
              split at h
              · exact absurd h (by simp)
              · rename_i hrecentPos
                injection h with h
                subst h
                refine ⟨?_, hport, by show 0 < portN; omega,
                  hrecent, by show 0 < recentN; omega, rfl⟩
                simp only [Bool.or_eq_false_iff, Bool.not_eq_false,
                  Bool.not_eq_true] at hacc
                simpa using hacc.2

/-- C7.  Whenever the resolved port is non-positive or non-integer, the
resolved recent count is non-positive or non-integer, or the resolved
account lacks an at sign, `_invoke` emits a validation error and the trace
of network commands is empty — no connection is opened. -/
theorem C7_validation_before_connection (p : ToolParams) (c : Credentials)
    (srv : ImapServer)
    (hbad : (resolvedAccount p c).toStr.data.contains '@' = false
      ∨ (∀ n, pyToInt (resolvedPort p c) = .ok n → n ≤ 0)
      ∨ (∀ n, pyToInt (resolvedRecent p c) = .ok n → n ≤ 0)) :
    ∃ e, invoke srv p c = (.errMsg e, []) := by
  cases hb : buildConfig p c with
  | error e => exact ⟨e, by simp [invoke, hb]⟩
  | ok cfg =>
    exfalso
    obtain ⟨h1, h2, h3, h4, h5, -⟩ := buildConfig_ok_inv p c cfg hb
    rcases hbad with h | h | h
    · rw [h1] at h
      exact Bool.noConfusion h
    · exact absurd (h _ h2) (by omega)
    · exact absurd (h _ h4) (by omega)

/-- Witness for C7: a port override that does not parse as an integer. -/
theorem C7_validation_before_connection_witness :
    ∃ e, invoke benignServer badPortParams goodCreds = (.errMsg e, []) :=
  C7_validation_before_connection badPortParams goodCreds benignServer
    (Or.inr (Or.inl (by
      intro n h
      rw [show pyToInt (resolvedPort badPortParams goodCreds)
          = .error "ValueError" from rfl] at h
      cases h)))

/-- C2 counterexample: a subject whose single encoded-word segment holds
bytes undecodable under its declared charset makes `_extract_email` raise,
and the whole invocation aborts with a single error record — no empty-field
record is produced for the message. -/
theorem C2_counterexample :
    extractEmail badSubjectMsg = .error (.unicodeDecodeError "ascii")
    ∧ (invoke (oneMsgServer badSubjectMsg) noParams goodCreds).1
        = .errMsg "codec cannot decode: ascii" :=
  ⟨rfl, by decide⟩

/-- C2 (amended).  An absent header decodes to the empty string and an
unencoded text segment always decodes, but the header decoding is strict:
whenever the normalization of a message raises, the error propagates out of
the per-message loop and the invocation yields a single error record
instead of any per-message records. -/
theorem C2_header_error_propagates (m : Msg) (e : PyErr)
    (hm : extractEmail m = .error e) :
    decodeHeaderValue none = .ok ""
    ∧ (∀ s, decodeHeaderValue (some [.text s]) = .ok s)
    ∧ (invoke (oneMsgServer m) noParams goodCreds).1 = .errMsg e.toStr := by
  refine ⟨rfl, ?_, ?_⟩
  · intro s
    simp [decodeHeaderValue, makeHeaderStr, Except.map]
  · have h1 : extractParts [FetchPart.msgTuple m] = .error e := by
      simp [extractParts, hm]
    have ht : targetIds ["1"] (5 : Int) = ["1"] := by decide
    simp [invoke, buildConfig_noParams_goodCreds, fetchAndDeleteEmails,
      fetchInner, oneMsgServer, benignServer, benignConfig, ht,
      processTargets, h1, Except.map]

/-- Witness for C2 at the concrete bad-subject message. -/
theorem C2_header_error_propagates_witness :
    decodeHeaderValue none = .ok ""
    ∧ (∀ s, decodeHeaderValue (some [.text s]) = .ok s)
    ∧ (invoke (oneMsgServer badSubjectMsg) noParams goodCreds).1
        = .errMsg (PyErr.unicodeDecodeError "ascii").toStr :=
  C2_header_error_propagates badSubjectMsg (.unicodeDecodeError "ascii") rfl

/-- C3 counterexample: a part declaring an unknown charset with a present
payload makes `_decode_part` raise a lookup error — the declared `errors =
"ignore"` handler does not cover codec lookup — and the invocation aborts
with an error record. -/
theorem C3_counterexample :
    decodePart bogusPart = .error (.lookupError "x-bogus")
    ∧ (invoke (oneMsgServer bogusCharsetMsg) noParams goodCreds).1
        = .errMsg "unknown encoding: x-bogus" :=
  ⟨by decide, by decide⟩

lemma pyDecode_ignore_ok (cs : String) (cdc : Codec) (bs : List Nat)
    (h : lookupCodec cs = some cdc) : ∃ s, pyDecode cs true bs = .ok s := by
  unfold pyDecode
  rw [h]
  simp

/-- C3 (amended).  Payload decoding uses the declared charset, defaulting
to UTF-8 when none is declared; a missing payload yields the empty string;
and when the declared (or defaulted) charset names a known codec the
decode ignores undecodable byte sequences and always returns a text value —
but an unknown charset name raises a codec lookup error. -/
theorem C3_payload_decoding (p : PartInfo) :
    (p.payload = none → decodePart p = .ok "")
    ∧ (∀ bs cdc, p.payload = some bs →
        lookupCodec (p.charset.getD "utf-8") = some cdc →
        ∃ s, decodePart p = .ok s)
    ∧ (∀ bs, p.charset = none → p.payload = some bs →
        decodePart p = .ok (natsToString (utf8DecodeIgnore bs))) := by
  refine ⟨fun h => by simp [decodePart, h], ?_, ?_⟩
  · intro bs cdc hp hl
    unfold decodePart
    rw [hp]
    exact pyDecode_ignore_ok _ cdc _ hl
  · intro bs hc hp
    simp only [decodePart, hc, hp, Option.getD_none]
    have hu : lookupCodec "utf-8" = some Codec.utf8 := by decide
    simp [pyDecode, hu]

/-- Witness for C3 at concrete parts. -/
theorem C3_payload_decoding_witness :
    decodePart containerInfo = .ok ""
    ∧ (∃ s, decodePart plainPart = .ok s)
    ∧ decodePart ⟨"text/plain", none, none, some [104, 105]⟩
        = .ok (natsToString (utf8DecodeIgnore [104, 105])) :=
  ⟨(C3_payload_decoding containerInfo).1 rfl,
   (C3_payload_decoding plainPart).2.1 [104, 105] .utf8 rfl (by decide),
   (C3_payload_decoding _).2.2 [104, 105] rfl rfl⟩

/-- C9 counterexample: an otherwise-valid credential bundle passes the
provider validation, but the same bundle with an absent config label is
rejected with a missing-field error — the label is not optional in
`_validate_credentials`. -/
theorem C9_counterexample :
    validateCredentials goodCreds = .ok ()
    ∧ validateCredentials noLabelCreds
        = .error "Missing or empty credential: config_name" :=
  ⟨by decide, by decide⟩

/-- C9 (amended).  The tool-side config construction treats the label as
optional — an absent label yields a config with no label and is not
rejected — but the provider credential validation rejects every bundle with
an absent or empty config label with a missing-field error. -/
theorem C9_label_optional_only_tool_side (c : Credentials)
    (hc : c.config_name.truthy = false) (p : ToolParams)
    (hp : p.config_name = .vNone) :
    validateCredentials c = .error "Missing or empty credential: config_name"
    ∧ (∀ cfg, buildConfig p c = .ok cfg → cfg.config_name = none)
    ∧ buildConfig noParams noLabelCreds
        = .ok ⟨none, "u@x.com", "p", "imap.x.com", 993, 5⟩ := by
  refine ⟨?_, ?_, by decide⟩
  · unfold validateCredentials
    rw [hc]
    rfl
  · intro cfg h
    have hname := (buildConfig_ok_inv p c cfg h).2.2.2.2.2
    rw [hname]
    have : resolvedName p c = c.config_name := by
      unfold resolvedName
      rw [hp]
      rfl
    rw [this, hc]
    rfl

/-- Witness for C9 at the concrete label-free bundle. -/
theorem C9_label_optional_only_tool_side_witness :
    validateCredentials noLabelCreds
      = .error "Missing or empty credential: config_name"
    ∧ (∀ cfg, buildConfig noParams noLabelCreds = .ok cfg →
        cfg.config_name = none)
    ∧ buildConfig noParams noLabelCreds
        = .ok ⟨none, "u@x.com", "p", "imap.x.com", 993, 5⟩ :=
  C9_label_optional_only_tool_side noLabelCreds rfl noParams rfl

lemma pyOr_falsy (a b : PyVal) (h : a.truthy = false) : pyOr a b = b := by
  unfold pyOr
  rw [h]
  rfl

/-- C10.  A falsy caller-supplied parameter (0, empty string, None) is
treated as unset by `_build_config`: it is replaced by the stored credential
value (for the recent count, by 5 when the stored value is also falsy), and
only the resolved value is validated — a falsy override is never itself
rejected by the positive-integer validation. -/
theorem C10_falsy_params_fall_back (p : ToolParams) (c : Credentials) :
    (p.recent_count.truthy = false →
      buildConfig p c = buildConfig { p with recent_count := .vNone } c)
    ∧ (p.imap_port.truthy = false →
      buildConfig p c = buildConfig { p with imap_port := .vNone } c)
    ∧ (p.recent_count.truthy = false → c.recent_count.truthy = false →
      ∀ cfg, buildConfig p c = .ok cfg → cfg.recent_count = 5)
    ∧ buildConfig zeroParams goodCreds = .ok benignConfig := by
  refine ⟨?_, ?_, ?_, by decide⟩
  · intro h
    have hr : resolvedRecent p c
        = resolvedRecent { p with recent_count := PyVal.vNone } c := by
      unfold resolvedRecent
      rw [pyOr_falsy _ _ h]
      rfl
    unfold buildConfig
    rw [hr]
    rfl
  · intro h
    have hr : resolvedPort p c
        = resolvedPort { p with imap_port := PyVal.vNone } c := by
      unfold resolvedPort
      rw [pyOr_falsy _ _ h]
      rfl
    unfold buildConfig
    rw [hr]
    rfl
  · intro h1 h2 cfg hok
    have hrec := (buildConfig_ok_inv p c cfg hok).2.2.2.1
    have hr : resolvedRecent p c = PyVal.vInt 5 := by
      unfold resolvedRecent
      rw [pyOr_falsy _ _ h1, pyOr_falsy _ _ h2]
    rw [hr] at hrec
    have : (5 : Int) = cfg.recent_count := Except.ok.inj hrec
    omega

/-- Witness for C10 at the zero-override parameters. -/
theorem C10_falsy_params_fall_back_witness :
    (buildConfig zeroParams goodCreds
      = buildConfig { zeroParams with recent_count := .vNone } goodCreds)
    ∧ (∀ cfg, buildConfig zeroParams credsNoRecent = .ok cfg →
        cfg.recent_count = 5) :=
  ⟨(C10_falsy_params_fall_back zeroParams goodCreds).1 rfl,
   (C10_falsy_params_fall_back zeroParams credsNoRecent).2.2.1 rfl rfl⟩

/-- C4.  Body selection: the extracted body of a multipart message is the
decoded content of the first walked part that is `text/plain` with no
content-disposition, else of the first `text/html` part with no
content-disposition, else empty; a non-multipart message decodes its single
payload.  In particular an HTML-only multipart yields the HTML text and a
multipart with an attachment before an inline plain part yields the plain
part, not the attachment. -/
theorem C4_body_selection :
    (∀ m, extractBody m = specSelectBody m)
    ∧ extractBody htmlOnlyMsg = .ok "<p>"
    ∧ extractBody attachThenPlainMsg = .ok "hi"
    ∧ (∀ i, extractBody (.leafPart i) = decodePart i) := by
  refine ⟨?_, by decide, by decide, fun i => rfl⟩
  intro m
  unfold extractBody specSelectBody
  rw [List.filter_head?, List.filter_head?]

lemma pySplitChar_ne_nil (c : Char) (l : List Char) : pySplitChar c l ≠ [] := by
  cases l with
  | nil => simp [pySplitChar]
  | cons x xs =>
    unfold pySplitChar
    split
    · simp
    · split <;> simp

lemma pySplitChar_append_sep (c : Char) (a b : List Char) :
    pySplitChar c (a ++ c :: b) = pySplitChar c a ++ pySplitChar c b := by
  induction a with
  | nil =>
    cases h : pySplitChar c b with
    | nil => exact absurd h (pySplitChar_ne_nil c b)
    | cons x t => simp [pySplitChar, h]
  | cons x xs ih =>
    simp only [List.cons_append, pySplitChar, List.append_eq]
    rw [ih]
    cases h : pySplitChar c xs with
    | nil => exact absurd h (pySplitChar_ne_nil c xs)
    | cons a t => by_cases hxc : x = c <;> simp [hxc]

lemma pySplitChar_not_mem (c : Char) (l : List Char) (h : c ∉ l) :
    pySplitChar c l = [l] := by
  induction l with
  | nil => rfl
  | cons x xs ih =>
    have hx : ¬(x = c) := by
      rintro rfl
      exact h (List.mem_cons_self _ _)
    have hxs : c ∉ xs := fun hm => h (List.mem_cons_of_mem _ hm)
    unfold pySplitChar
    rw [ih hxs]
    simp [hx]

lemma parseMailboxName_quoted (a m b : List Char) (hm : '\"' ∉ m)
    (hb : '\"' ∉ b) :
    parseMailboxName (a ++ '\"' :: (m ++ '\"' :: b)) = some m := by
  have hmem : '\"' ∈ a ++ '\"' :: (m ++ '\"' :: b) := by simp
  unfold parseMailboxName
  rw [if_pos hmem]
  simp only [pySplitChar_append_sep, pySplitChar_not_mem _ _ hm,
    pySplitChar_not_mem _ _ hb]
  have hlen : (pySplitChar '\"' a ++ ([m] ++ [b])).length
      = (pySplitChar '\"' a).length + 2 := by simp
  rw [if_pos (by omega)]
  have hidx : (pySplitChar '\"' a ++ ([m] ++ [b])).length - 2
      = (pySplitChar '\"' a).length := by omega
  rw [hidx, List.getD_append_right _ _ _ _ le_rfl]
  simp

lemma dropWhile_eq_of_not_mem {c : Char} {l : List Char} (h : c ∉ l) :
    l.dropWhile (· = c) = l := by
  cases l with
  | nil => rfl
  | cons x xs =>
    have hx : ¬(x = c) := by
      rintro rfl
      exact h (List.mem_cons_self _ _)
    simp [List.dropWhile_cons, hx]

lemma pyStripChar_not_mem (c : Char) (l : List Char) (h : c ∉ l) :
    pyStripChar c l = l := by
  unfold pyStripChar
  rw [dropWhile_eq_of_not_mem h,
    dropWhile_eq_of_not_mem (by simpa using h), List.reverse_reverse]

lemma pyWsSplitAux_mem_sub :
    ∀ (l acc t : List Char), t ∈ pyWsSplitAux acc l →
      ∀ ch ∈ t, ch ∈ acc ∨ ch ∈ l := by
  intro l
  induction l with
  | nil =>
    intro acc t ht ch hch
    unfold pyWsSplitAux at ht
    split at ht
    · simp at ht
    · simp only [List.mem_singleton] at ht
      subst ht
      left
      simpa using hch
  | cons x xs ih =>
    intro acc t ht ch hch
    unfold pyWsSplitAux at ht
    split at ht
    · split at ht
      · rcases ih [] t ht ch hch with h | h
        · simp at h
        · right
          exact List.mem_cons_of_mem _ h
      · rcases List.mem_cons.mp ht with rfl | ht2
        · left
          simpa using hch
        · rcases ih [] t ht2 ch hch with h | h
          · simp at h
          · right
            exact List.mem_cons_of_mem _ h
    · rcases ih (x :: acc) t ht ch hch with h | h
      · rcases List.mem_cons.mp h with rfl | h2
        · right
          exact List.mem_cons_self _ _
        · left
          exact h2
      · right
        exact List.mem_cons_of_mem _ h

lemma parseMailboxName_noquote (l : List Char) (h : '\"' ∉ l) :
    parseMailboxName l = (pyWsSplit l).getLast? := by
  unfold parseMailboxName
  rw [if_neg h]
  unfold parseTokensName
  cases hl : (pyWsSplit l).getLast? with
  | none => rfl
  | some t =>
    have ht : t ∈ pyWsSplit l := List.mem_of_mem_getLast? hl
    have hq : '\"' ∉ t := fun hcq =>
      (pyWsSplitAux_mem_sub l [] t ht _ hcq).elim (by simp) h
    simp [pyStripChar_not_mem _ _ hq]

lemma findTrashAux_eq (ls : List (List Char)) :
    findTrashAux ls
      = ((ls.filterMap parseMailboxName).filter isTrashName).head? := by
  induction ls with
  | nil => rfl
  | cons l rest ih =>
    unfold findTrashAux
    cases hp : parseMailboxName l with
    | none => simp [List.filterMap_cons, hp, ih]
    | some name =>
      by_cases hnil : name = []
      · subst hnil
        simp [List.filterMap_cons, hp, isTrashName, ih]
      · by_cases halias :
          TRASH_FOLDERS.any (fun f => lowerChars name == lowerChars f)
        · simp [List.filterMap_cons, hp, isTrashName, hnil, halias]
        · simp [List.filterMap_cons, hp, isTrashName, hnil, halias, ih]

/-- C8.  Trash resolution: a line whose last pair of quote marks encloses a
name parses to that name; a quote-free line parses to its last whitespace
token (quote stripping being a no-op there); the resolver returns the first
parsed name that matches the alias set case-insensitively; when no line
matches, `_empty_trash` only lists (no select, store or expunge) and
reports `false`; when a line matches, the folder is selected, its full
`1:*` range is flagged deleted, the folder is expunged, and `true` is
reported. -/
theorem C8_trash_resolution :
    (∀ a m b, '\"' ∉ m → '\"' ∉ b →
      parseMailboxName (a ++ '\"' :: (m ++ '\"' :: b)) = some m)
    ∧ (∀ l, '\"' ∉ l → parseMailboxName l = (pyWsSplit l).getLast?)
    ∧ (∀ ls, findTrashAux ls
        = ((ls.filterMap parseMailboxName).filter isTrashName).head?)
    ∧ (∀ srv : ImapServer, srv.listFails = false →
        findTrashFolder srv.listLines = none →
        emptyTrash srv = (.ok false, [.listCmd]))
    ∧ (∀ (srv : ImapServer) (nm : List Char), srv.listFails = false →
        findTrashFolder srv.listLines = some nm →
        srv.selectFails (String.mk nm) = false →
        srv.storeFails (String.mk nm) "1:*" = false →
        srv.expungeFails (String.mk nm) = false →
        emptyTrash srv = (.ok true,
          [.listCmd, .selectF (String.mk nm),
           .store (String.mk nm) "1:*" deletedFlag,
           .expunge (String.mk nm)])) := by
  refine ⟨parseMailboxName_quoted, parseMailboxName_noquote,
    findTrashAux_eq, ?_, ?_⟩
  · intro srv hlf hf
    unfold emptyTrash
    rw [hlf, hf]
    simp
  · intro srv nm hlf hf h1 h2 h3
    unfold emptyTrash
    rw [hlf, hf]
    simp [h1, h2, h3]

/-- Witness for C8 at concrete listing lines and servers. -/
theorem C8_trash_resolution_witness :
    parseMailboxName ("(\\HasNoChildren) \"/\" ".data ++ '\"' ::
        ("Deleted Items".data ++ '\"' :: []))
      = some "Deleted Items".data
    ∧ parseMailboxName "A B C".data = (pyWsSplit "A B C".data).getLast?
    ∧ emptyTrash benignServer = (.ok false, [.listCmd])
    ∧ emptyTrash trashServer = (.ok true,
        [.listCmd, .selectF (String.mk "Deleted Items".data),
         .store (String.mk "Deleted Items".data) "1:*" deletedFlag,
         .expunge (String.mk "Deleted Items".data)]) :=
  ⟨C8_trash_resolution.1 _ _ _ (by decide) (by decide),
   C8_trash_resolution.2.1 _ (by decide),
   C8_trash_resolution.2.2.2.1 benignServer rfl rfl,
   C8_trash_resolution.2.2.2.2 trashServer "Deleted Items".data rfl
     (by decide) rfl rfl rfl⟩

lemma findTrashAux_alias (ls : List (List Char)) (nm : List Char)
    (h : findTrashAux ls = some nm) :
    TRASH_FOLDERS.any (fun f => lowerChars nm == lowerChars f) = true := by
  induction ls with
  | nil => exact Option.noConfusion h
  | cons l rest ih =>
    unfold findTrashAux at h
    cases hp : parseMailboxName l with
    | none =>
      rw [hp] at h
      exact ih h
    | some name =>
      rw [hp] at h
      simp only at h
      split at h
      · exact ih h
      · split at h
        · rename_i halias
          injection h with h
          subst h
          exact halias
        · exact ih h

lemma findTrashFolder_ne_inbox (x : Option (List (List Char)))
    (nm : List Char) (h : findTrashFolder x = some nm) :
    String.mk nm ≠ "INBOX" := by
  intro he
  have hnm : nm = "INBOX".data := congrArg String.data he
  cases x with
  | none => exact Option.noConfusion h
  | some ls =>
    unfold findTrashFolder at h
    simp only at h
    split at h
    · exact Option.noConfusion h
    · have halias := findTrashAux_alias ls nm h
      rw [hnm] at halias
      exact absurd halias (by decide)

lemma emptyTrash_inbox (srv : ImapServer) :
    storeTargets "INBOX" (emptyTrash srv).2 = []
    ∧ Act.expunge "INBOX" ∉ (emptyTrash srv).2 := by
  unfold emptyTrash
  by_cases hlf : srv.listFails = true
  · simp [hlf, storeTargets]
  · simp only [hlf, Bool.false_eq_true, if_false]
    cases hf : findTrashFolder srv.listLines with
    | none => simp [storeTargets]
    | some nmC =>
      have hne : String.mk nmC ≠ "INBOX" :=
        findTrashFolder_ne_inbox _ _ hf
      have hne2 : ¬("INBOX" = String.mk nmC) := fun hx => hne hx.symm
      by_cases h1 : srv.selectFails (String.mk nmC) = true <;>
        by_cases h2 : srv.storeFails (String.mk nmC) "1:*" = true <;>
        by_cases h3 : srv.expungeFails (String.mk nmC) = true <;>
        simp [h1, h2, h3, storeTargets, hne, hne2]

lemma processTargets_props (srv : ImapServer) (ids : List String) :
    (∃ n, storeTargets "INBOX" (processTargets srv ids).2 = ids.take n)
    ∧ (∀ id ∈ storeTargets "INBOX" (processTargets srv ids).2,
        srv.fetchFails id = false
        ∧ ∃ rs, extractParts (srv.fetchData id) = .ok rs)
    ∧ (∀ rc, (processTargets srv ids).1 = .ok rc →
        storeTargets "INBOX" (processTargets srv ids).2 = ids
        ∧ rc.2 = ids.length)
    ∧ (∀ f, Act.expunge f ∉ (processTargets srv ids).2) := by
  induction ids with
  | nil =>
    refine ⟨⟨0, rfl⟩, by simp [processTargets, storeTargets], ?_,
      by simp [processTargets]⟩
    intro rc h
    have h2 : (Except.ok (([], 0) : List EmailRec × Nat) : Except PyErr _)
        = .ok rc := h
    have h3 := Except.ok.inj h2
    exact ⟨rfl, by simp [← h3]⟩
  | cons id rest ih =>
    obtain ⟨⟨n, hn⟩, hmem, hok, hexp⟩ := ih
    by_cases hf : srv.fetchFails id = true
    · refine ⟨⟨0, by simp [processTargets, hf, storeTargets]⟩, ?_, ?_, ?_⟩
      · intro i hi
        simp [processTargets, hf, storeTargets] at hi
      · intro rc h
        simp [processTargets, hf] at h
      · intro f
        simp [processTargets, hf]
    · cases hx : extractParts (srv.fetchData id) with
      | error e =>
        refine ⟨⟨0, by simp [processTargets, hf, hx, storeTargets]⟩,
          ?_, ?_, ?_⟩
        · intro i hi
          simp [processTargets, hf, hx, storeTargets] at hi
        · intro rc h
          simp [processTargets, hf, hx] at h
        · intro f
          simp [processTargets, hf, hx]
      | ok recs =>
        by_cases hs : srv.storeFails "INBOX" id = true
        · refine ⟨⟨1, by simp [processTargets, hf, hx, hs, storeTargets]⟩,
            ?_, ?_, ?_⟩
          · intro i hi
            simp [processTargets, hf, hx, hs, storeTargets] at hi
            subst hi
            exact ⟨by simpa using hf, recs, hx⟩
          · intro rc h
            simp [processTargets, hf, hx, hs] at h
          · intro f
            simp [processTargets, hf, hx, hs]
        · have hstep : processTargets srv (id :: rest)
              = ((processTargets srv rest).1.map
                  (fun x => (recs ++ x.1, x.2 + 1)),
                .fetch id :: .store "INBOX" id deletedFlag ::
                  (processTargets srv rest).2) := by
            simp [processTargets, hf, hx, hs]
          have hsts : storeTargets "INBOX" (processTargets srv (id :: rest)).2
              = id :: storeTargets "INBOX" (processTargets srv rest).2 := by
            rw [hstep]
            simp [storeTargets]
          refine ⟨⟨n + 1, ?_⟩, ?_, ?_, ?_⟩
          · rw [hsts, hn]
            simp [List.take_succ_cons]
          · intro i hi
            rw [hsts] at hi
            rcases List.mem_cons.mp hi with rfl | hi2
            · exact ⟨by simpa using hf, recs, hx⟩
            · exact hmem i hi2
          · intro rc h
            rw [hstep] at h
            cases hrest : (processTargets srv rest).1 with
            | error e =>
              rw [hrest] at h
              simp [Except.map] at h
            | ok rc0 =>
              rw [hrest] at h
              have hrc : ((recs ++ rc0.1, rc0.2 + 1) :
                  List EmailRec × Nat) = rc := by
                have := h
                simpa [Except.map] using this
              obtain ⟨hst0, hcnt0⟩ := hok rc0 hrest
              constructor
              · rw [hsts, hst0]
              · rw [← hrc]
                simp [hcnt0]
          · intro f
            rw [hstep]
            simp only [List.mem_cons]
            rintro (h | h | h)
            · exact Act.noConfusion h
            · exact Act.noConfusion h
            · exact hexp f h

lemma storeTargets_append (f : String) (a b : List Act) :
    storeTargets f (a ++ b) = storeTargets f a ++ storeTargets f b := by
  unfold storeTargets
  simp

lemma fetchInner_props (srv : ImapServer) (cfg : ImapConfig) :
    (∃ n, storeTargets "INBOX" (fetchInner srv cfg).2
        = (inboxTargets srv cfg).take n)
    ∧ (∀ id ∈ storeTargets "INBOX" (fetchInner srv cfg).2,
        srv.fetchFails id = false
        ∧ ∃ rs, extractParts (srv.fetchData id) = .ok rs)
    ∧ (∀ rc, (fetchInner srv cfg).1 = .ok rc →
        storeTargets "INBOX" (fetchInner srv cfg).2 = inboxTargets srv cfg
        ∧ rc.2.1 = (inboxTargets srv cfg).length)
    ∧ (inboxTargets srv cfg = [] →
        Act.expunge "INBOX" ∉ (fetchInner srv cfg).2
        ∧ ∀ rc, (fetchInner srv cfg).1 = .ok rc → rc.2.1 = 0) := by
  obtain ⟨⟨n, hn⟩, hmem, hok, hexp⟩ :=
    processTargets_props srv (inboxTargets srv cfg)
  obtain ⟨hts, hte⟩ := emptyTrash_inbox srv
  have hpre : storeTargets "INBOX"
      [Act.login, Act.selectF "INBOX", Act.search] = [] := rfl
  have hexp1 : storeTargets "INBOX" [Act.expunge "INBOX"] = [] := rfl
  by_cases hl : srv.loginFails = true
  · refine ⟨⟨0, by simp [fetchInner, hl, storeTargets]⟩, ?_, ?_, ?_⟩
    · intro i hi
      simp [fetchInner, hl, storeTargets] at hi
    · intro rc h
      simp [fetchInner, hl] at h
    · intro hT
      exact ⟨by simp [fetchInner, hl], fun rc h => by
        simp [fetchInner, hl] at h⟩
  · by_cases hsel : srv.selectFails "INBOX" = true
    · refine ⟨⟨0, by simp [fetchInner, hl, hsel, storeTargets]⟩, ?_, ?_, ?_⟩
      · intro i hi
        simp [fetchInner, hl, hsel, storeTargets] at hi
      · intro rc h
        simp [fetchInner, hl, hsel] at h
      · intro hT
        exact ⟨by simp [fetchInner, hl, hsel], fun rc h => by
          simp [fetchInner, hl, hsel] at h⟩
    · by_cases hq : srv.searchFails = true
      · refine ⟨⟨0, by simp [fetchInner, hl, hsel, hq, storeTargets]⟩,
          ?_, ?_, ?_⟩
        · intro i hi
          simp [fetchInner, hl, hsel, hq, storeTargets] at hi
        · intro rc h
          simp [fetchInner, hl, hsel, hq] at h
        · intro hT
          exact ⟨by simp [fetchInner, hl, hsel, hq], fun rc h => by
            simp [fetchInner, hl, hsel, hq] at h⟩
      · cases hres : (processTargets srv (inboxTargets srv cfg)).1 with
        | error e =>
          have hstep : fetchInner srv cfg
              = (.error e, [.login, .selectF "INBOX", .search]
                  ++ (processTargets srv (inboxTargets srv cfg)).2) := by
            unfold fetchInner
            rw [hres]
            simp [hl, hsel, hq]
          refine ⟨⟨n, ?_⟩, ?_, ?_, ?_⟩
          · rw [hstep, storeTargets_append, hpre]
            simpa using hn
          · intro i hi
            rw [hstep, storeTargets_append, hpre] at hi
            simp only [List.nil_append] at hi
            exact hmem i hi
          · intro rc h
            rw [hstep] at h
            simp at h
          · intro hT
            refine ⟨?_, fun rc h => by rw [hstep] at h; simp at h⟩
            rw [hstep]
            simp [hexp "INBOX"]
        | ok rc0 =>
          obtain ⟨hst0, hcnt0⟩ := hok rc0 hres
          by_cases hempty : (inboxTargets srv cfg).isEmpty = true
          · have hstep : fetchInner srv cfg
                = ((emptyTrash srv).1.map (fun b => (rc0.1, rc0.2, b)),
                  [.login, .selectF "INBOX", .search]
                    ++ (processTargets srv (inboxTargets srv cfg)).2
                    ++ (emptyTrash srv).2) := by
              unfold fetchInner
              rw [hres]
              simp [hl, hsel, hq, hempty]
            have hsteq : storeTargets "INBOX" (fetchInner srv cfg).2
                = storeTargets "INBOX"
                    (processTargets srv (inboxTargets srv cfg)).2 := by
              rw [hstep, storeTargets_append, storeTargets_append,
                hpre, hts]
              simp
            refine ⟨⟨n, by rw [hsteq]; exact hn⟩, ?_, ?_, ?_⟩
            · intro i hi
              rw [hsteq] at hi
              exact hmem i hi
            · intro rc h
              rw [hstep] at h
              cases hem : (emptyTrash srv).1 with
              | error e2 =>
                rw [hem] at h
                simp [Except.map] at h
              | ok b =>
                rw [hem] at h
                have hrc : ((rc0.1, rc0.2, b) :
                    List EmailRec × Nat × Bool) = rc := by
                  simpa [Except.map] using h
                refine ⟨by rw [hsteq, hst0], ?_⟩
                rw [← hrc]
                simpa using hcnt0
            · intro hT
              refine ⟨?_, ?_⟩
              · rw [hstep]
                simp [hexp "INBOX", hte]
              · intro rc h
                rw [hstep] at h
                cases hem : (emptyTrash srv).1 with
                | error e2 =>
                  rw [hem] at h
                  simp [Except.map] at h
                | ok b =>
                  rw [hem] at h
                  have hrc : ((rc0.1, rc0.2, b) :
                      List EmailRec × Nat × Bool) = rc := by
                    simpa [Except.map] using h
                  rw [← hrc]
                  simp [hcnt0, hT]
          · by_cases hef : srv.expungeFails "INBOX" = true
            · have hstep : fetchInner srv cfg
                  = (.error (.imapError "expunge"),
                    [.login, .selectF "INBOX", .search]
                      ++ (processTargets srv (inboxTargets srv cfg)).2
                      ++ [.expunge "INBOX"]) := by
                unfold fetchInner
                rw [hres]
                simp [hl, hsel, hq, hempty, hef]
              refine ⟨⟨n, ?_⟩, ?_, ?_, ?_⟩
              · rw [hstep, storeTargets_append, storeTargets_append,
                  hpre, hexp1]
                simpa using hn
              · intro i hi
                rw [hstep, storeTargets_append, storeTargets_append,
                  hpre, hexp1] at hi
                simp only [List.nil_append, List.append_nil] at hi
                exact hmem i hi
              · intro rc h
                rw [hstep] at h
                simp at h
              · intro hT
                exact absurd (by simp [hT] :
                  (inboxTargets srv cfg).isEmpty = true) hempty
            · have hstep : fetchInner srv cfg
                  = ((emptyTrash srv).1.map (fun b => (rc0.1, rc0.2, b)),
                    [.login, .selectF "INBOX", .search]
                      ++ (processTargets srv (inboxTargets srv cfg)).2
                      ++ [.expunge "INBOX"] ++ (emptyTrash srv).2) := by
                unfold fetchInner
                rw [hres]
                simp [hl, hsel, hq, hempty, hef]
              have hsteq : storeTargets "INBOX" (fetchInner srv cfg).2
                  = storeTargets "INBOX"
                      (processTargets srv (inboxTargets srv cfg)).2 := by
                rw [hstep, storeTargets_append, storeTargets_append,
                  storeTargets_append, hpre, hts, hexp1]
                simp
              refine ⟨⟨n, by rw [hsteq]; exact hn⟩, ?_, ?_, ?_⟩
              · intro i hi
                rw [hsteq] at hi
                exact hmem i hi
              · intro rc h
                rw [hstep] at h
                cases hem : (emptyTrash srv).1 with
                | error e2 =>
                  rw [hem] at h
                  simp [Except.map] at h
                | ok b =>
                  rw [hem] at h
                  have hrc : ((rc0.1, rc0.2, b) :
                      List EmailRec × Nat × Bool) = rc := by
                    simpa [Except.map] using h
                  refine ⟨by rw [hsteq, hst0], ?_⟩
                  rw [← hrc]
                  simpa using hcnt0
              · intro hT
                exact absurd (by simp [hT] :
                  (inboxTargets srv cfg).isEmpty = true) hempty

lemma storeTargets_wrap (f : String) (tr : List Act) :
    storeTargets f (Act.connect :: (tr ++ [Act.logout]))
      = storeTargets f tr := by
  unfold storeTargets
  simp

/-- C5.  The deleted flag is applied only to identifiers that were
successfully fetched and normalized, per-identifier in target order (the
stores on INBOX always form a prefix of the target sequence, and exactly
the target sequence on success); the reported deletedCount equals the
number of INBOX store commands issued; and when the target sequence is
empty no expunge is issued on INBOX and the reported deletedCount is 0. -/
theorem C5_deletion_coupling (srv : ImapServer) (cfg : ImapConfig) :
    (∃ n, storeTargets "INBOX" (fetchAndDeleteEmails srv cfg).2
        = (inboxTargets srv cfg).take n)
    ∧ (∀ id ∈ storeTargets "INBOX" (fetchAndDeleteEmails srv cfg).2,
        srv.fetchFails id = false
        ∧ ∃ rs, extractParts (srv.fetchData id) = .ok rs)
    ∧ (∀ recs cnt trash tr,
        fetchAndDeleteEmails srv cfg = (.ok (recs, cnt, trash), tr) →
        storeTargets "INBOX" tr = inboxTargets srv cfg
        ∧ cnt = (storeTargets "INBOX" tr).length)
    ∧ (inboxTargets srv cfg = [] →
        Act.expunge "INBOX" ∉ (fetchAndDeleteEmails srv cfg).2
        ∧ ∀ recs cnt trash tr,
            fetchAndDeleteEmails srv cfg = (.ok (recs, cnt, trash), tr) →
            cnt = 0) := by
  obtain ⟨⟨n, hn⟩, hmem, hok, hempty⟩ := fetchInner_props srv cfg
  by_cases hc : srv.connectFails = true
  · refine ⟨⟨0, by simp [fetchAndDeleteEmails, hc, storeTargets]⟩,
      ?_, ?_, ?_⟩
    · intro i hi
      simp [fetchAndDeleteEmails, hc, storeTargets] at hi
    · intro recs cnt trash tr h
      simp [fetchAndDeleteEmails, hc] at h
    · intro hT
      refine ⟨by simp [fetchAndDeleteEmails, hc], ?_⟩
      intro recs cnt trash tr h
      simp [fetchAndDeleteEmails, hc] at h
  · have hw : fetchAndDeleteEmails srv cfg
        = ((fetchInner srv cfg).1,
          .connect :: ((fetchInner srv cfg).2 ++ [.logout])) := by
      unfold fetchAndDeleteEmails
      simp [hc]
    have hs : storeTargets "INBOX" (fetchAndDeleteEmails srv cfg).2
        = storeTargets "INBOX" (fetchInner srv cfg).2 := by
      rw [hw]
      exact storeTargets_wrap _ _
    refine ⟨⟨n, by rw [hs]; exact hn⟩, ?_, ?_, ?_⟩
    · intro i hi
      rw [hs] at hi
      exact hmem i hi
    · intro recs cnt trash tr h
      rw [hw] at h
      have h1 : (fetchInner srv cfg).1 = .ok (recs, cnt, trash) := by
        have h2 := congrArg Prod.fst h
        simpa using h2
      have h2 : tr = .connect :: ((fetchInner srv cfg).2 ++ [.logout]) := by
        have h3 := congrArg Prod.snd h
        simpa using h3.symm
      obtain ⟨ha, hb⟩ := hok (recs, cnt, trash) h1
      subst h2
      rw [storeTargets_wrap]
      exact ⟨ha, by rw [ha]; exact hb⟩
    · intro hT
      obtain ⟨he, hcnt⟩ := hempty hT
      refine ⟨?_, ?_⟩
      · rw [hw]
        simp [he]
      · intro recs cnt trash tr h
        rw [hw] at h
        have h1 : (fetchInner srv cfg).1 = .ok (recs, cnt, trash) := by
          have h2 := congrArg Prod.fst h
          simpa using h2
        simpa using hcnt (recs, cnt, trash) h1

/-- Witness for C5 on the benign empty-inbox server. -/
theorem C5_deletion_coupling_witness :
    (∃ n, storeTargets "INBOX"
        (fetchAndDeleteEmails benignServer benignConfig).2
      = (inboxTargets benignServer benignConfig).take n)
    ∧ Act.expunge "INBOX" ∉ (fetchAndDeleteEmails benignServer benignConfig).2
    ∧ (∀ recs cnt trash tr,
        fetchAndDeleteEmails benignServer benignConfig
          = (.ok (recs, cnt, trash), tr) → cnt = 0) := by
  refine ⟨(C5_deletion_coupling benignServer benignConfig).1, ?_, ?_⟩
  · exact ((C5_deletion_coupling benignServer benignConfig).2.2.2
      (by decide)).1
  · exact ((C5_deletion_coupling benignServer benignConfig).2.2.2
      (by decide)).2

end FetchImap
